import Mathlib

/-! Shallow embedding of the process/terminal-session supervisor of
`src/src-tauri/src/lib.rs` (the `pty` module and the OpenCode sidecar
controller), together with proofs of the spec's claims about it.

Modelling conventions:
- `std::time::Instant` is a `Nat` (seconds); `Instant::duration_since`
  saturates at zero, matching truncated `Nat` subtraction.
- The `u32` session counter wraps modulo `2^32` (release-mode Rust
  `+=` semantics).
- OS resources (the pty writer / child / master handles) are not part of
  the table state; the fallible OS calls made by each operation are
  modelled by explicit outcome parameters (`Except String _`), one per
  call site, so every control path of the Rust code is a path of the
  Lean function.
- `HashMap<String, PtySession>` is an association list with map
  semantics: `insert` replaces any existing binding, `remove` deletes
  the binding of the key.
-/

namespace Onyx

/-- Constant `PTY_SESSION_TIMEOUT`: maximum PTY session lifetime, 4 hours in seconds
(`Duration::from_secs(4 * 60 * 60)`). -/
def PTY_SESSION_TIMEOUT : Nat := 4 * 60 * 60

/-- Constant `MAX_PTY_SESSIONS`: maximum number of concurrent PTY sessions. -/
def MAX_PTY_SESSIONS : Nat := 10

/-- Modulus of the `u32` session counter. -/
def u32Mod : Nat := 2 ^ 32

/-- One `PtySession` table entry.  The Rust struct also owns the writer,
child and master pty handles; those are OS resources with no table-level
content, so only the `created_at` metadata is carried here. -/
structure PtySession where
  createdAt : Nat
  deriving DecidableEq, Repr

/-- State `PtyState`: the session table (`HashMap<String, PtySession>` as an
association list) and the `u32` id counter. -/
structure PtyState where
  sessions : List (String × PtySession)
  counter : Nat
  deriving DecidableEq, Repr

/-- Initial state `PtyState::default()`: empty table, counter 0. -/
def PtyState.init : PtyState := { sessions := [], counter := 0 }

/-- Sweep `PtyState::cleanup_expired_sessions`: retain every session with
`now.duration_since(created_at) < PTY_SESSION_TIMEOUT`. -/
def PtyState.cleanupExpiredSessions (s : PtyState) (now : Nat) : PtyState :=
  { s with
    sessions :=
      s.sessions.filter fun p =>
        decide (now - p.2.createdAt < PTY_SESSION_TIMEOUT) }

/-- Capacity check `PtyState::can_create_session`: `sessions.len() < MAX_PTY_SESSIONS`. -/
def PtyState.canCreateSession (s : PtyState) : Bool :=
  s.sessions.length < MAX_PTY_SESSIONS

/-- Lookup, i.e. `HashMap::get`, on the association list. -/
def assocFind (sid : String) : List (String × PtySession) → Option PtySession
  | [] => none
  | (k, v) :: rest => if k = sid then some v else assocFind sid rest

/-- Error message of the capacity check in `spawn_pty`. -/
def maxSessionsMsg : String :=
  "Maximum number of terminal sessions reached. Please close some terminals first."

/-- Error message of `write_pty`/`resize_pty`/`kill_pty` on an unknown id. -/
def notFoundMsg : String := "Session not found"

/-- Outcomes of the fallible OS calls made by one `spawn_pty` invocation,
plus the two `Instant::now()` readings (`now` at the sweep, `insertNow` at
insertion; the sweep happens first, so `now ≤ insertNow` in any real run). -/
structure SpawnEnv where
  now : Nat
  insertNow : Nat
  openpty : Except String Unit
  spawnCommand : Except String Unit
  cloneReader : Except String Unit
  takeWriter : Except String Unit
  deriving Repr

/-- Command `pty::spawn_pty`.  Returns the command result, the resulting table
state, and whether the child process was actually spawned (i.e. whether
`slave.spawn_command` ran and succeeded).  Mirrors the Rust control flow:
sweep, capacity check, `openpty`, `spawn_command`, `try_clone_reader`,
`take_writer`, id generation (`counter += 1` on `u32`), insertion. -/
def spawnPty (env : SpawnEnv) (s : PtyState) :
    Except String String × PtyState × Bool :=
  let s1 := s.cleanupExpiredSessions env.now
  if s1.canCreateSession then
    match env.openpty with
    | Except.error e => (Except.error e, s1, false)
    | Except.ok () =>
      match env.spawnCommand with
      | Except.error e => (Except.error e, s1, false)
      | Except.ok () =>
        match env.cloneReader with
        | Except.error e => (Except.error e, s1, true)
        | Except.ok () =>
          match env.takeWriter with
          | Except.error e => (Except.error e, s1, true)
          | Except.ok () =>
            let c := (s1.counter + 1) % u32Mod
            let sid := "pty_" ++ toString c
            let s2 : PtyState :=
              { sessions :=
                  (sid, { createdAt := env.insertNow }) ::
                    s1.sessions.filter (fun p => p.1 != sid),
                counter := c }
            (Except.ok sid, s2, true)
  else
    (Except.error maxSessionsMsg, s1, false)

/-- Outcomes of the two fallible writer calls in `write_pty`. -/
structure WriteEnv where
  writeAll : Except String Unit
  flush : Except String Unit
  deriving Repr

/-- Command `pty::write_pty`: look up the session; on an unknown id fail with
`"Session not found"`; otherwise `write_all` then `flush`, propagating
either error.  The table itself is never structurally changed. -/
def writePty (env : WriteEnv) (s : PtyState) (sessionId : String) :
    Except String Unit × PtyState :=
  match assocFind sessionId s.sessions with
  | some _ =>
    match env.writeAll with
    | Except.error e => (Except.error e, s)
    | Except.ok () =>
      match env.flush with
      | Except.error e => (Except.error e, s)
      | Except.ok () => (Except.ok (), s)
  | none => (Except.error notFoundMsg, s)

/-- Command `pty::resize_pty`: look up the session; unknown id fails with
`"Session not found"`; otherwise the `master.resize` OS call's outcome is
passed through.  `cols`/`rows` only feed the OS call. -/
def resizePty (resizeResult : Except String Unit) (s : PtyState)
    (sessionId : String) (cols rows : Nat) : Except String Unit × PtyState :=
  let _ := cols
  let _ := rows
  match assocFind sessionId s.sessions with
  | some _ =>
    match resizeResult with
    | Except.error e => (Except.error e, s)
    | Except.ok () => (Except.ok (), s)
  | none => (Except.error notFoundMsg, s)

/-- Command `pty::kill_pty`: `sessions.remove(&session_id)`; `Ok` when a binding
was removed, `"Session not found"` otherwise. -/
def killPty (s : PtyState) (sessionId : String) :
    Except String Unit × PtyState :=
  match assocFind sessionId s.sessions with
  | some _ =>
    (Except.ok (),
     { s with sessions := s.sessions.filter (fun p => p.1 != sessionId) })
  | none => (Except.error notFoundMsg, s)

/-- One outcome of `reader.read(&mut buf)` in the relay thread:
a chunk of `n > 0` bytes (already lossily decoded), `Ok(0)` (EOF), or a
read error. -/
inductive ReadResult where
  | chunk (data : String)
  | eof
  | readErr
  deriving DecidableEq, Repr

/-- An event emitted by the relay thread: `pty-output-<id>` with a decoded
chunk, or `pty-exit-<id>`. -/
inductive PtyEvent where
  | output (sessionId : String) (data : String)
  | exited (sessionId : String)
  deriving DecidableEq, Repr

/-- Whether a read outcome terminates the relay loop (EOF or error). -/
def isTerminalRead : ReadResult → Bool
  | ReadResult.chunk _ => false
  | ReadResult.eof => true
  | ReadResult.readErr => true

/-- The reader thread of `spawn_pty`: emit an output event per chunk; on
the first EOF or read error emit the exit event and stop.  The argument
list is the stream of read outcomes; an exhausted list with no terminal
outcome models a thread still blocked in `read`. -/
def readerLoop (sessionId : String) : List ReadResult → List PtyEvent
  | [] => []
  | ReadResult.chunk d :: rest =>
      PtyEvent.output sessionId d :: readerLoop sessionId rest
  | ReadResult.eof :: _ => [PtyEvent.exited sessionId]
  | ReadResult.readErr :: _ => [PtyEvent.exited sessionId]

/-- Result of `Child::try_wait` on the tracked sidecar process:
`Ok(Some(_))` (exited), `Ok(None)` (still running), or `Err(_)`. -/
inductive ProcStatus where
  | exited
  | running
  | pollError
  deriving DecidableEq, Repr

/-- A spawned child process: its pid plus what `try_wait` reports. -/
structure Child where
  pid : Nat
  status : ProcStatus
  deriving DecidableEq, Repr

/-- State `OpenCodeServerState`: the single-slot sidecar state. -/
structure OpenCodeServerState where
  process : Option Child
  port : Option Nat
  deriving DecidableEq, Repr

/-- Initial state `OpenCodeServerState::default()`. -/
def OpenCodeServerState.init : OpenCodeServerState :=
  { process := none, port := none }

/-- The invariant of the sidecar slot: `process` and `port` are present or
absent together. -/
def sidecarInv (s : OpenCodeServerState) : Prop :=
  s.process.isSome = s.port.isSome

instance (s : OpenCodeServerState) : Decidable (sidecarInv s) := by
  unfold sidecarInv
  infer_instance

/-- Observable process-management side effects of a sidecar operation, in
program order. -/
inductive ProcAction where
  | kill (pid : Nat)
  | wait (pid : Nat)
  | spawned (pid : Nat)
  deriving DecidableEq, Repr

/-- The spawn half of `start_opencode_server` (from the `Command::new`
block onward): on spawn failure return the formatted error with the state
left as the first phase produced it; on success store process and port. -/
def sidecarSpawnPhase (spawnResult : Except String Child)
    (enhancedPath : String) (s1 : OpenCodeServerState) (port : Nat)
    (acts : List ProcAction) :
    Except String Unit × OpenCodeServerState × List ProcAction :=
  match spawnResult with
  | Except.error e =>
      (Except.error ("Failed to spawn opencode: " ++ e ++ ". PATH=" ++ enhancedPath),
       s1, acts)
  | Except.ok child =>
      (Except.ok (),
       { process := some child, port := some port },
       acts ++ [ProcAction.spawned child.pid])

/-- Command `start_opencode_server`.  First phase under the lock: if a process is
tracked, `try_wait`; on exit or poll error clear both fields; if still
running on the same port return `Ok` immediately; if running on a
different port kill + wait the old process and clear both fields.  Then
spawn (`sidecarSpawnPhase`). -/
def startOpencodeServer (spawnResult : Except String Child)
    (enhancedPath : String) (s : OpenCodeServerState) (port : Nat) :
    Except String Unit × OpenCodeServerState × List ProcAction :=
  match s.process with
  | some child =>
    match child.status with
    | ProcStatus.exited =>
        sidecarSpawnPhase spawnResult enhancedPath
          { process := none, port := none } port []
    | ProcStatus.running =>
        if s.port = some port then
          (Except.ok (), s, [])
        else
          sidecarSpawnPhase spawnResult enhancedPath
            { process := none, port := none } port
            [ProcAction.kill child.pid, ProcAction.wait child.pid]
    | ProcStatus.pollError =>
        sidecarSpawnPhase spawnResult enhancedPath
          { process := none, port := none } port []
  | none => sidecarSpawnPhase spawnResult enhancedPath s port []

/-- Command `stop_opencode_server`: kill + wait any tracked process, clear both
fields, always `Ok`. -/
def stopOpencodeServer (s : OpenCodeServerState) :
    Except String Unit × OpenCodeServerState × List ProcAction :=
  match s.process with
  | some child =>
      (Except.ok (), { process := none, port := none },
       [ProcAction.kill child.pid, ProcAction.wait child.pid])
  | none => (Except.ok (), { process := none, port := none }, [])

/-- Command `is_opencode_server_managed`: non-blocking poll; lazily clears both
fields when the process has exited or the poll errs. -/
def isOpencodeServerManaged (s : OpenCodeServerState) :
    Bool × OpenCodeServerState :=
  match s.process with
  | some child =>
    match child.status with
    | ProcStatus.exited => (false, { process := none, port := none })
    | ProcStatus.running => (true, s)
    | ProcStatus.pollError => (false, { process := none, port := none })
  | none => (false, s)

/-- The `WindowEvent::Destroyed` shutdown hook in `run()`: kill + wait any
tracked sidecar process and clear both fields. -/
def shutdownHook (s : OpenCodeServerState) :
    OpenCodeServerState × List ProcAction :=
  match s.process with
  | some child =>
      ({ process := none, port := none },
       [ProcAction.kill child.pid, ProcAction.wait child.pid])
  | none => ({ process := none, port := none }, [])

/-! Concrete fixtures used by witnesses and counterexamples. -/

/-- A `SpawnEnv` in which every OS call succeeds and both clock readings
are `t`. -/
def okEnv (t : Nat) : SpawnEnv :=
  { now := t, insertNow := t,
    openpty := Except.ok (), spawnCommand := Except.ok (),
    cloneReader := Except.ok (), takeWriter := Except.ok () }

/-- A `SpawnEnv` whose `openpty` call fails, observed at sweep time
`14400` (so a session created at time 0 is exactly at the timeout). -/
def openptyFailEnv : SpawnEnv :=
  { now := 14400, insertNow := 14400,
    openpty := Except.error "boom", spawnCommand := Except.ok (),
    cloneReader := Except.ok (), takeWriter := Except.ok () }

/-- A table holding one session `"pty_1"` created at time 0. -/
def oneSessionState : PtyState :=
  { sessions := [("pty_1", { createdAt := 0 })], counter := 1 }

/-- A table holding ten fresh sessions (created at time 0). -/
def tenSessionState : PtyState :=
  { sessions :=
      (List.range 10).map (fun i => ("pty_" ++ toString (i + 1), { createdAt := 0 })),
    counter := 10 }

/-- One spawn-then-kill round under `okEnv 0`: create a session and
immediately kill it, leaving only the counter advanced. -/
def spawnKillRound (s : PtyState) : PtyState :=
  match spawnPty (okEnv 0) s with
  | (Except.ok sid, s2, _) => (killPty s2 sid).2
  | (Except.error _, s2, _) => s2

/-- The table state after `n` spawn-then-kill rounds from `PtyState.init`. -/
def roundsState : Nat → PtyState
  | 0 => PtyState.init
  | n + 1 => spawnKillRound (roundsState n)

/-- The id issued by successful create number `n + 1` in the
spawn-then-kill trace (i.e. by `spawn_pty` run on `roundsState n`). -/
def nthCreateId (n : Nat) : Option String :=
  match (spawnPty (okEnv 0) (roundsState n)).1 with
  | Except.ok sid => some sid
  | Except.error _ => none

/-! Helper lemmas. -/

/-- The sweep does not touch the id counter. -/
theorem cleanup_counter (s : PtyState) (now : Nat) :
    (s.cleanupExpiredSessions now).counter = s.counter := rfl

/-- The sweep is exactly a filter on the age predicate. -/
theorem cleanup_sessions (s : PtyState) (now : Nat) :
    (s.cleanupExpiredSessions now).sessions =
      s.sessions.filter
        (fun p => decide (now - p.2.createdAt < PTY_SESSION_TIMEOUT)) := rfl

/-- The sweep never grows the table. -/
theorem cleanup_length_le (s : PtyState) (now : Nat) :
    (s.cleanupExpiredSessions now).sessions.length ≤ s.sessions.length :=
  List.length_filter_le _ _

/-- Looking a key up after filtering it out yields `none`. -/
theorem assocFind_filter_ne (sid : String) (l : List (String × PtySession)) :
    assocFind sid (l.filter fun p => p.1 != sid) = none := by
  induction l with
  | nil => rfl
  | cons hd tl ih =>
    by_cases h : hd.1 = sid
    · simp [List.filter_cons, h, ih]
    · simp [List.filter_cons, h, assocFind, ih]

/-- Case analysis of one `spawn_pty` run: either it fails and the
resulting table is exactly the swept table, or the swept table was under
capacity and the run appends one fresh entry and advances the counter. -/
theorem spawnPty_spec (env : SpawnEnv) (s : PtyState) :
    ((spawnPty env s).2.1 = s.cleanupExpiredSessions env.now ∧
      ∃ e, (spawnPty env s).1 = Except.error e) ∨
    ((s.cleanupExpiredSessions env.now).sessions.length < MAX_PTY_SESSIONS ∧
      spawnPty env s =
        (Except.ok ("pty_" ++ toString ((s.counter + 1) % u32Mod)),
         { sessions :=
             ("pty_" ++ toString ((s.counter + 1) % u32Mod),
               { createdAt := env.insertNow }) ::
               (s.cleanupExpiredSessions env.now).sessions.filter
                 (fun p => p.1 != "pty_" ++ toString ((s.counter + 1) % u32Mod)),
           counter := (s.counter + 1) % u32Mod },
         true)) := by
  unfold spawnPty
  by_cases hc : (s.cleanupExpiredSessions env.now).canCreateSession
  · have hlt : (s.cleanupExpiredSessions env.now).sessions.length < MAX_PTY_SESSIONS := by
      simpa [PtyState.canCreateSession] using hc
    cases ho : env.openpty with
    | error e => exact Or.inl (by simp [hc, ho])
    | ok u =>
      cases u
      cases hs : env.spawnCommand with
      | error e => exact Or.inl (by simp [hc, ho, hs])
      | ok u =>
        cases u
        cases hr : env.cloneReader with
        | error e => exact Or.inl (by simp [hc, ho, hs, hr])
        | ok u =>
          cases u
          cases hw : env.takeWriter with
          | error e => exact Or.inl (by simp [hc, ho, hs, hr, hw])
          | ok u =>
            cases u
            exact Or.inr ⟨hlt, by simp [hc, ho, hs, hr, hw, cleanup_counter]⟩
  · exact Or.inl (by simp [hc])

/-! Claim theorems. -/

/-- C1: after the expiry sweep, if the table holds `MAX_PTY_SESSIONS`
(= 10) or more sessions, `spawn_pty` fails with the capacity error,
spawns no process and inserts nothing (the resulting table is exactly
the swept table); and starting from any table of at most 10 sessions,
the table never exceeds 10 sessions after a create. -/
theorem spawnPty_capacity_bound (env : SpawnEnv) (s : PtyState) :
    (MAX_PTY_SESSIONS ≤ (s.cleanupExpiredSessions env.now).sessions.length →
      spawnPty env s =
        (Except.error maxSessionsMsg, s.cleanupExpiredSessions env.now, false)) ∧
    (s.sessions.length ≤ MAX_PTY_SESSIONS →
      (spawnPty env s).2.1.sessions.length ≤ MAX_PTY_SESSIONS) := by
  constructor
  · intro h
    have hc : ¬ (s.cleanupExpiredSessions env.now).canCreateSession := by
      simp only [PtyState.canCreateSession, decide_eq_true_eq]
      omega
    unfold spawnPty
    simp [hc]
  · intro h
    rcases spawnPty_spec env s with ⟨heq, -⟩ | ⟨hlt, heq⟩
    · rw [heq]
      exact le_trans (cleanup_length_le s env.now) h
    · rw [heq]
      simp only [List.length_cons]
      have hf :=
        List.length_filter_le
          (fun p => p.1 != "pty_" ++ toString ((s.counter + 1) % u32Mod))
          (s.cleanupExpiredSessions env.now).sessions
      omega

/-- C1 witness: with ten live sessions, the eleventh concurrent create
fails with the capacity message and changes nothing. -/
theorem spawnPty_capacity_bound_witness :
    MAX_PTY_SESSIONS ≤
      (tenSessionState.cleanupExpiredSessions (okEnv 0).now).sessions.length ∧
    spawnPty (okEnv 0) tenSessionState =
      (Except.error maxSessionsMsg,
       tenSessionState.cleanupExpiredSessions (okEnv 0).now, false) :=
  ⟨by decide, (spawnPty_capacity_bound (okEnv 0) tenSessionState).1 (by decide)⟩

/-- C2: the sweep run at the start of every create removes exactly the
sessions whose age is at least `PTY_SESSION_TIMEOUT` and retains every
younger one, so a session at or past the timeout is gone from the table
after the next `spawn_pty` call (whatever that call's outcome). -/
theorem cleanup_sweep_exact (env : SpawnEnv) (s : PtyState) (sid : String)
    (sess : PtySession) :
    ((s.cleanupExpiredSessions env.now).sessions =
      s.sessions.filter
        (fun p => decide (env.now - p.2.createdAt < PTY_SESSION_TIMEOUT))) ∧
    (env.now ≤ env.insertNow → (sid, sess) ∈ s.sessions →
      PTY_SESSION_TIMEOUT ≤ env.now - sess.createdAt →
      (sid, sess) ∉ (spawnPty env s).2.1.sessions) := by
  refine ⟨rfl, ?_⟩
  intro hmono hmem hage
  have hT : 0 < PTY_SESSION_TIMEOUT := by decide
  have hnot : (sid, sess) ∉ (s.cleanupExpiredSessions env.now).sessions := by
    rw [cleanup_sessions]
    intro hin
    have hp := List.of_mem_filter hin
    simp only [decide_eq_true_eq] at hp
    omega
  have hlt : sess.createdAt < env.now := by omega
  rcases spawnPty_spec env s with ⟨heq, -⟩ | ⟨-, heq⟩
  · rw [heq]; exact hnot
  · rw [heq]
    simp only [List.mem_cons]
    rintro (hpair | hin)
    · have hcr : sess.createdAt = env.insertNow := by
        have := congrArg (fun q => q.2.createdAt) hpair
        simpa using this
      omega
    · exact hnot (List.mem_of_mem_filter hin)

/-- C2 witness: a session created at time 0 and swept at time 14400
(exactly the 4-hour timeout) is no longer in the table after the next
create call, here one whose pty allocation even fails. -/
theorem cleanup_sweep_exact_witness :
    (okEnv 0).now ≤ (okEnv 0).insertNow ∧
    ("pty_1", ({ createdAt := 0 } : PtySession)) ∈ oneSessionState.sessions ∧
    PTY_SESSION_TIMEOUT ≤ openptyFailEnv.now - (0 : Nat) ∧
    ("pty_1", ({ createdAt := 0 } : PtySession)) ∉
      (spawnPty openptyFailEnv oneSessionState).2.1.sessions :=
  ⟨by decide, by decide, by decide,
   (cleanup_sweep_exact openptyFailEnv oneSessionState "pty_1"
      { createdAt := 0 }).2 (by decide) (by decide) (by decide)⟩

/-- C4 counterexample: with one session at exactly the timeout age in the
table and a failing `openpty` call, `spawn_pty` returns the error but the
stored session set is not what it was before the call — the sweep already
removed the expired entry. -/
theorem spawnPty_failure_state_cex :
    (spawnPty openptyFailEnv oneSessionState).1 = Except.error "boom" ∧
    (spawnPty openptyFailEnv oneSessionState).2.1.sessions ≠
      oneSessionState.sessions := by
  constructor
  · rfl
  · decide

/-- C4 (amended): whenever `spawn_pty` fails, it returns a descriptive
error string and leaves no partial state beyond the sweep: the id counter
is unchanged and the stored sessions are exactly the swept pre-call
sessions — no entry is inserted and every remaining entry already existed
before the call. -/
theorem spawnPty_failure_no_partial_state (env : SpawnEnv) (s : PtyState)
    (e : String) (h : (spawnPty env s).1 = Except.error e) :
    (spawnPty env s).2.1.counter = s.counter ∧
    (spawnPty env s).2.1.sessions =
      (s.cleanupExpiredSessions env.now).sessions ∧
    ∀ p ∈ (spawnPty env s).2.1.sessions, p ∈ s.sessions := by
  rcases spawnPty_spec env s with ⟨heq, -⟩ | ⟨-, heq⟩
  · rw [heq]
    refine ⟨cleanup_counter s env.now, rfl, fun p hp => ?_⟩
    rw [cleanup_sessions] at hp
    exact List.mem_of_mem_filter hp
  · rw [heq] at h
    simp at h

/-- C4 (amended) witness: the failing call of the counterexample leaves
the counter untouched and the table equal to the swept table. -/
theorem spawnPty_failure_no_partial_state_witness :
    (spawnPty openptyFailEnv oneSessionState).1 = Except.error "boom" ∧
    (spawnPty openptyFailEnv oneSessionState).2.1.counter =
      oneSessionState.counter ∧
    (spawnPty openptyFailEnv oneSessionState).2.1.sessions =
      (oneSessionState.cleanupExpiredSessions openptyFailEnv.now).sessions :=
  ⟨rfl,
   (spawnPty_failure_no_partial_state openptyFailEnv oneSessionState "boom"
      rfl).1,
   (spawnPty_failure_no_partial_state openptyFailEnv oneSessionState "boom"
      rfl).2.1⟩

/-- C3: `write_pty`, `resize_pty` and `kill_pty` on an id absent from the
table all return the `"Session not found"` error and leave the table
unchanged; and after a successful `kill_pty`, subsequent `write_pty` and
`resize_pty` on that id return the same error and leave the table
unchanged. -/
theorem pty_ops_notFound (wenv : WriteEnv) (rres : Except String Unit)
    (s : PtyState) (sid : String) (cols rows : Nat) :
    (assocFind sid s.sessions = none →
      writePty wenv s sid = (Except.error notFoundMsg, s) ∧
      resizePty rres s sid cols rows = (Except.error notFoundMsg, s) ∧
      killPty s sid = (Except.error notFoundMsg, s)) ∧
    (∀ s2, killPty s sid = (Except.ok (), s2) →
      writePty wenv s2 sid = (Except.error notFoundMsg, s2) ∧
      resizePty rres s2 sid cols rows = (Except.error notFoundMsg, s2)) := by
  constructor
  · intro h
    refine ⟨?_, ?_, ?_⟩ <;> simp [writePty, resizePty, killPty, h]
  · intro s2 h
    unfold killPty at h
    cases hf : assocFind sid s.sessions with
    | none =>
      rw [hf] at h
      simp at h
    | some v =>
      rw [hf] at h
      have hs2 : s2 =
          { s with sessions := s.sessions.filter (fun p => p.1 != sid) } := by
        have := congrArg (fun q => q.2) h
        simpa using this.symm
      subst hs2
      have hnone :
          assocFind sid (s.sessions.filter (fun p => p.1 != sid)) = none :=
        assocFind_filter_ne sid s.sessions
      constructor <;> simp [writePty, resizePty, hnone]

/-- C3 witness: a write to an unknown id fails with the not-found error,
and after killing the only session, a write to its id fails likewise. -/
theorem pty_ops_notFound_witness :
    (assocFind "pty_9" oneSessionState.sessions = none ∧
      writePty { writeAll := Except.ok (), flush := Except.ok () }
        oneSessionState "pty_9" = (Except.error notFoundMsg, oneSessionState)) ∧
    (killPty oneSessionState "pty_1" =
       (Except.ok (), { sessions := [], counter := 1 }) ∧
      writePty { writeAll := Except.ok (), flush := Except.ok () }
        { sessions := [], counter := 1 } "pty_1" =
        (Except.error notFoundMsg, { sessions := [], counter := 1 })) := by
  refine ⟨⟨by decide, ?_⟩, ⟨?_, ?_⟩⟩
  · exact ((pty_ops_notFound { writeAll := Except.ok (), flush := Except.ok () }
      (Except.ok ()) oneSessionState "pty_9" 80 24).1 (by decide)).1
  · rfl
  · exact ((pty_ops_notFound { writeAll := Except.ok (), flush := Except.ok () }
      (Except.ok ()) oneSessionState "pty_1" 80 24).2
      { sessions := [], counter := 1 } rfl).1

/-- Counting exit events: a read stream containing a terminal outcome
makes the relay emit exactly one exit event. -/
theorem readerLoop_count_exit (sid : String) :
    ∀ reads : List ReadResult, (∃ r ∈ reads, isTerminalRead r = true) →
      (readerLoop sid reads).count (PtyEvent.exited sid) = 1 := by
  intro reads
  induction reads with
  | nil => intro h; simp at h
  | cons r rest ih =>
    intro h
    cases r with
    | chunk d =>
      have hrest : ∃ x ∈ rest, isTerminalRead x = true := by
        rcases h with ⟨x, hx, ht⟩
        rcases List.mem_cons.mp hx with rfl | hx2
        · simp [isTerminalRead] at ht
        · exact ⟨x, hx2, ht⟩
      simp [readerLoop, List.count_cons, ih hrest]
    | eof => simp [readerLoop, List.count_cons]
    | readErr => simp [readerLoop, List.count_cons]

/-- Last event: a read stream containing a terminal outcome makes the
relay end with the exit event. -/
theorem readerLoop_getLast (sid : String) :
    ∀ reads : List ReadResult, (∃ r ∈ reads, isTerminalRead r = true) →
      (readerLoop sid reads).getLast? = some (PtyEvent.exited sid) := by
  intro reads
  induction reads with
  | nil => intro h; simp at h
  | cons r rest ih =>
    intro h
    cases r with
    | chunk d =>
      have hrest : ∃ x ∈ rest, isTerminalRead x = true := by
        rcases h with ⟨x, hx, ht⟩
        rcases List.mem_cons.mp hx with rfl | hx2
        · simp [isTerminalRead] at ht
        · exact ⟨x, hx2, ht⟩
      have h2 := ih hrest
      cases hl : readerLoop sid rest with
      | nil => rw [hl] at h2; simp at h2
      | cons y ys =>
        rw [hl] at h2
        simpa [readerLoop, List.getLast?_cons_cons, hl] using h2
    | eof => simp [readerLoop]
    | readErr => simp [readerLoop]

/-- EOF and read error are folded into the same behaviour: after any
prefix of chunk reads, ending by EOF or ending by a read error produces
the same event list. -/
theorem readerLoop_terminal_eq (sid : String) :
    ∀ pre : List ReadResult, (∀ r ∈ pre, isTerminalRead r = false) →
      readerLoop sid (pre ++ [ReadResult.eof]) =
        readerLoop sid (pre ++ [ReadResult.readErr]) := by
  intro pre
  induction pre with
  | nil => intro _; rfl
  | cons r rest ih =>
    intro h
    cases r with
    | chunk d =>
      simp only [List.cons_append, readerLoop, List.append_eq]
      rw [ih fun x hx => h x (List.mem_cons_of_mem _ hx)]
    | eof =>
      have := h ReadResult.eof (by simp)
      simp [isTerminalRead] at this
    | readErr =>
      have := h ReadResult.readErr (by simp)
      simp [isTerminalRead] at this

/-- C5: once the process ends (the read stream reaches EOF or a read
error), the relay loop has emitted exactly one exit event, that exit
event is the last event emitted for the session, and a stream ending in
EOF produces exactly the same events as one ending in a read error. -/
theorem readerLoop_exit_last (sid : String) (reads : List ReadResult)
    (h : ∃ r ∈ reads, isTerminalRead r = true) :
    (readerLoop sid reads).count (PtyEvent.exited sid) = 1 ∧
    (readerLoop sid reads).getLast? = some (PtyEvent.exited sid) ∧
    ∀ pre : List ReadResult, (∀ r ∈ pre, isTerminalRead r = false) →
      readerLoop sid (pre ++ [ReadResult.eof]) =
        readerLoop sid (pre ++ [ReadResult.readErr]) :=
  ⟨readerLoop_count_exit sid reads h, readerLoop_getLast sid reads h,
   readerLoop_terminal_eq sid⟩

/-- C5 witness: a concrete stream of one chunk followed by EOF yields one
output event and then the single, final exit event. -/
theorem readerLoop_exit_last_witness :
    readerLoop "pty_1" [ReadResult.chunk "hi", ReadResult.eof] =
      [PtyEvent.output "pty_1" "hi", PtyEvent.exited "pty_1"] ∧
    (readerLoop "pty_1" [ReadResult.chunk "hi", ReadResult.eof]).count
      (PtyEvent.exited "pty_1") = 1 ∧
    (readerLoop "pty_1" [ReadResult.chunk "hi", ReadResult.eof]).getLast? =
      some (PtyEvent.exited "pty_1") := by
  have h := readerLoop_exit_last "pty_1"
    [ReadResult.chunk "hi", ReadResult.eof] (by decide)
  exact ⟨by decide, h.1, h.2.1⟩

/-- Evaluating one successful `spawn_pty` on an empty table. -/
theorem spawnPty_empty (c : Nat) :
    spawnPty (okEnv 0) { sessions := [], counter := c } =
      (Except.ok ("pty_" ++ toString ((c + 1) % u32Mod)),
       { sessions :=
           [("pty_" ++ toString ((c + 1) % u32Mod), { createdAt := 0 })],
         counter := (c + 1) % u32Mod },
       true) := by
  unfold spawnPty
  simp [PtyState.cleanupExpiredSessions, PtyState.canCreateSession, okEnv,
    MAX_PTY_SESSIONS]

/-- One spawn-then-kill round on an empty table only advances the wrapped
counter. -/
theorem spawnKillRound_eq (c : Nat) :
    spawnKillRound { sessions := [], counter := c } =
      { sessions := [], counter := (c + 1) % u32Mod } := by
  unfold spawnKillRound
  rw [spawnPty_empty]
  simp [killPty, assocFind]

/-- After `n` spawn-then-kill rounds the table is empty and the counter
is `n` reduced modulo `2^32`. -/
theorem roundsState_eq (n : Nat) :
    roundsState n = { sessions := [], counter := n % u32Mod } := by
  induction n with
  | zero => simp [roundsState, PtyState.init]
  | succ n ih =>
    rw [roundsState, ih, spawnKillRound_eq]
    have h1 : (1 : Nat) % u32Mod = 1 := by norm_num [u32Mod]
    have h2 : (n % u32Mod + 1) % u32Mod = (n + 1) % u32Mod := by
      conv_rhs => rw [Nat.add_mod, h1]
    rw [h2]

/-- Closed form of the id issued by each successive successful create in
the spawn-then-kill trace. -/
theorem nthCreateId_eq (n : Nat) :
    nthCreateId n = some ("pty_" ++ toString ((n + 1) % u32Mod)) := by
  unfold nthCreateId
  rw [roundsState_eq, spawnPty_empty]
  have h1 : (1 : Nat) % u32Mod = 1 := by norm_num [u32Mod]
  have h2 : (n % u32Mod + 1) % u32Mod = (n + 1) % u32Mod := by
    conv_rhs => rw [Nat.add_mod, h1]
  rw [h2]

/-- C9 counterexample: the `u32` session counter wraps, so the claim that
an issued id is strictly greater than all previously issued ones (and
hence never reused) fails: in a run of repeated create/kill calls, create
number `2^32 + 1` returns `"pty_1"`, the very id returned by create
number 1. -/
theorem session_id_reuse_cex :
    nthCreateId 0 = some "pty_1" ∧
    nthCreateId (2 ^ 32) = some "pty_1" ∧ (0 : Nat) ≠ 2 ^ 32 := by
  have h0 : ((0 : Nat) + 1) % u32Mod = 1 := by norm_num [u32Mod]
  have hw : ((2 ^ 32 : Nat) + 1) % u32Mod = 1 := by norm_num [u32Mod]
  refine ⟨?_, ?_, by norm_num⟩
  · rw [nthCreateId_eq, h0]; rfl
  · rw [nthCreateId_eq, hw]; rfl


/-- C9 (amended): every successful `spawn_pty` returns the id
`"pty_" ++ toString ((counter + 1) % 2^32)` and stores that wrapped value
as the new counter, incremented under the table lock; the counter — and
with it the numeric part of the id — is strictly increasing as long as
the total number of successful creates stays below `2^32`, so ids are not
reused before the `u32` counter wraps. -/
theorem spawnPty_id_format_monotone (env : SpawnEnv) (s : PtyState)
    (sid : String) (s2 : PtyState) (b : Bool)
    (h : spawnPty env s = (Except.ok sid, s2, b)) :
    sid = "pty_" ++ toString ((s.counter + 1) % u32Mod) ∧
    s2.counter = (s.counter + 1) % u32Mod ∧
    (s.counter + 1 < u32Mod → s.counter < s2.counter) := by
  rcases spawnPty_spec env s with ⟨-, e, he⟩ | ⟨-, heq⟩
  · rw [h] at he
    simp at he
  · rw [h] at heq
    have h1 := congrArg (fun q => q.1) heq
    have h2 := congrArg (fun q => q.2.1.counter) heq
    simp only [Except.ok.injEq] at h1
    simp only at h2
    refine ⟨h1, h2, fun hlt => ?_⟩
    rw [h2, Nat.mod_eq_of_lt hlt]
    omega

/-- C9 (amended) witness: the first create from the initial state returns
`"pty_1"` and advances the counter to 1. -/
theorem spawnPty_id_format_monotone_witness :
    spawnPty (okEnv 0) PtyState.init =
      (Except.ok "pty_1",
       { sessions := [("pty_1", { createdAt := 0 })], counter := 1 }, true) ∧
    "pty_1" = "pty_" ++ toString ((PtyState.init.counter + 1) % u32Mod) ∧
    PtyState.init.counter <
      ({ sessions := [("pty_1", { createdAt := 0 })],
         counter := 1 } : PtyState).counter := by
  have hrun : spawnPty (okEnv 0) PtyState.init =
      (Except.ok "pty_1",
       { sessions := [("pty_1", { createdAt := 0 })], counter := 1 }, true) := by
    rfl
  have h := spawnPty_id_format_monotone (okEnv 0) PtyState.init "pty_1"
    { sessions := [("pty_1", { createdAt := 0 })], counter := 1 } true hrun
  exact ⟨hrun, h.1, h.2.2 (by decide)⟩

/-- C6: every sidecar operation — start, stop, liveness query and the
shutdown hook — preserves the invariant that `process` and `port` are set
together and cleared together. -/
theorem sidecar_inv_preserved (spawnRes : Except String Child) (path : String)
    (s : OpenCodeServerState) (port : Nat) (h : sidecarInv s) :
    sidecarInv (startOpencodeServer spawnRes path s port).2.1 ∧
    sidecarInv (stopOpencodeServer s).2.1 ∧
    sidecarInv (isOpencodeServerManaged s).2 ∧
    sidecarInv (shutdownHook s).1 := by
  obtain ⟨proc, prt⟩ := s
  refine ⟨?_, ?_, ?_, ?_⟩
  · cases proc with
    | none =>
      cases spawnRes with
      | error e =>
        simpa [startOpencodeServer, sidecarSpawnPhase, sidecarInv] using h
      | ok c => simp [startOpencodeServer, sidecarSpawnPhase, sidecarInv]
    | some c =>
      cases hst : c.status <;> cases spawnRes <;>
        simp [startOpencodeServer, sidecarSpawnPhase, sidecarInv, hst] <;>
        split <;>
        simp_all [sidecarInv]
  · cases proc <;> simp [stopOpencodeServer, sidecarInv]
  · cases proc with
    | none => simpa [isOpencodeServerManaged, sidecarInv] using h
    | some c =>
      cases hst : c.status <;>
        simp_all [isOpencodeServerManaged, sidecarInv]
  · cases proc <;> simp [shutdownHook, sidecarInv]

/-- C6 witness: the invariant holds of a live state and is preserved by
each of the four operations run on it. -/
theorem sidecar_inv_preserved_witness :
    sidecarInv ⟨some ⟨5, ProcStatus.running⟩, some 4096⟩ ∧
    sidecarInv (startOpencodeServer (Except.ok ⟨7, ProcStatus.running⟩) "p"
      ⟨some ⟨5, ProcStatus.running⟩, some 4096⟩ 4096).2.1 ∧
    sidecarInv (stopOpencodeServer
      ⟨some ⟨5, ProcStatus.running⟩, some 4096⟩).2.1 ∧
    sidecarInv (isOpencodeServerManaged
      ⟨some ⟨5, ProcStatus.running⟩, some 4096⟩).2 ∧
    sidecarInv (shutdownHook ⟨some ⟨5, ProcStatus.running⟩, some 4096⟩).1 := by
  have h := sidecar_inv_preserved (Except.ok ⟨7, ProcStatus.running⟩) "p"
    ⟨some ⟨5, ProcStatus.running⟩, some 4096⟩ 4096 (by decide)
  exact ⟨by decide, h.1, h.2.1, h.2.2.1, h.2.2.2⟩

/-- C7: starting the sidecar while a live process is tracked on the same
port is a no-op: the call returns `Ok`, performs no kill, wait or spawn,
and leaves the state — including the tracked process — unchanged. -/
theorem sidecar_start_idempotent (spawnRes : Except String Child)
    (path : String) (c : Child) (p : Nat) (s : OpenCodeServerState)
    (h1 : s.process = some c) (h2 : c.status = ProcStatus.running)
    (h3 : s.port = some p) :
    startOpencodeServer spawnRes path s p = (Except.ok (), s, []) := by
  simp [startOpencodeServer, h1, h2, h3]

/-- C7 witness: a second start on port 4096 with a live tracked process
returns `Ok` with the very same state and no process actions. -/
theorem sidecar_start_idempotent_witness :
    (⟨some ⟨5, ProcStatus.running⟩, some 4096⟩ : OpenCodeServerState).process =
      some ⟨5, ProcStatus.running⟩ ∧
    startOpencodeServer (Except.ok ⟨7, ProcStatus.running⟩) "p"
      ⟨some ⟨5, ProcStatus.running⟩, some 4096⟩ 4096 =
      (Except.ok (), ⟨some ⟨5, ProcStatus.running⟩, some 4096⟩, []) :=
  ⟨rfl,
   sidecar_start_idempotent (Except.ok ⟨7, ProcStatus.running⟩) "p"
     ⟨5, ProcStatus.running⟩ 4096 ⟨some ⟨5, ProcStatus.running⟩, some 4096⟩
     rfl rfl rfl⟩

/-- C8: starting the sidecar on a different port while a live process is
tracked kills and waits for the old process before spawning, and on
success the state is exactly the new process on the new port. -/
theorem sidecar_start_replaces (path : String) (c newc : Child) (p q : Nat)
    (s : OpenCodeServerState) (h1 : s.process = some c)
    (h2 : c.status = ProcStatus.running) (h3 : s.port = some p) (h4 : p ≠ q) :
    startOpencodeServer (Except.ok newc) path s q =
      (Except.ok (), { process := some newc, port := some q },
       [ProcAction.kill c.pid, ProcAction.wait c.pid,
        ProcAction.spawned newc.pid]) := by
  have hne : s.port ≠ some q := by
    rw [h3]
    simp [h4]
  simp [startOpencodeServer, sidecarSpawnPhase, h1, h2, hne]

/-- C8 witness: a start on port 5000 with a live process on port 4096
kills and waits for pid 5, then spawns and stores pid 7 with port 5000. -/
theorem sidecar_start_replaces_witness :
    (4096 : Nat) ≠ 5000 ∧
    startOpencodeServer (Except.ok ⟨7, ProcStatus.running⟩) "p"
      ⟨some ⟨5, ProcStatus.running⟩, some 4096⟩ 5000 =
      (Except.ok (), { process := some ⟨7, ProcStatus.running⟩, port := some 5000 },
       [ProcAction.kill 5, ProcAction.wait 5, ProcAction.spawned 7]) :=
  ⟨by decide,
   sidecar_start_replaces "p" ⟨5, ProcStatus.running⟩ ⟨7, ProcStatus.running⟩
     4096 5000 ⟨some ⟨5, ProcStatus.running⟩, some 4096⟩ rfl rfl rfl
     (by decide)⟩

/-- C10: a failed sidecar start is not atomic: whenever
`start_opencode_server` returns a spawn error, the state is Absent (both
fields cleared); and if a live process had been tracked on a different
port, it was already killed and waited for and is not restored. -/
theorem sidecar_start_failure_absent (spawnRes : Except String Child)
    (path : String) (s : OpenCodeServerState) (port : Nat)
    (h : sidecarInv s) (e : String) (s1 : OpenCodeServerState)
    (acts : List ProcAction)
    (hrun : startOpencodeServer spawnRes path s port =
      (Except.error e, s1, acts)) :
    s1.process = none ∧ s1.port = none ∧
    (∀ c, s.process = some c → c.status = ProcStatus.running →
      s.port ≠ some port →
      ProcAction.kill c.pid ∈ acts ∧ ProcAction.wait c.pid ∈ acts) := by
  obtain ⟨proc, prt⟩ := s
  cases proc with
  | none =>
    cases spawnRes with
    | ok c => simp [startOpencodeServer, sidecarSpawnPhase] at hrun
    | error e2 =>
      simp only [startOpencodeServer, sidecarSpawnPhase, Prod.mk.injEq] at hrun
      have hprt : prt = none := by
        simpa [sidecarInv] using h
      refine ⟨?_, ?_, ?_⟩
      · rw [← hrun.2.1]
      · rw [← hrun.2.1]
        simpa using hprt
      · intro c hc
        simp at hc
  | some c0 =>
    cases hst : c0.status with
    | running =>
      by_cases hpq2 : prt = some port
      · simp [startOpencodeServer, hst, hpq2] at hrun
      · cases spawnRes with
        | ok c => simp [startOpencodeServer, sidecarSpawnPhase, hst, hpq2] at hrun
        | error e2 =>
          simp only [startOpencodeServer, sidecarSpawnPhase, hst,
            if_neg hpq2, Prod.mk.injEq] at hrun
          refine ⟨by rw [← hrun.2.1], by rw [← hrun.2.1], ?_⟩
          intro c hc hcs hne
          have hcc : c0 = c := by
            simpa using hc
          subst hcc
          rw [← hrun.2.2]
          simp
    | exited =>
      cases spawnRes with
      | ok c => simp [startOpencodeServer, sidecarSpawnPhase, hst] at hrun
      | error e2 =>
        simp only [startOpencodeServer, sidecarSpawnPhase, hst,
          Prod.mk.injEq] at hrun
        refine ⟨by rw [← hrun.2.1], by rw [← hrun.2.1], ?_⟩
        intro c hc hcs hne
        have hcc : c0 = c := by simpa using hc
        subst hcc
        rw [hst] at hcs
        simp at hcs
    | pollError =>
      cases spawnRes with
      | ok c => simp [startOpencodeServer, sidecarSpawnPhase, hst] at hrun
      | error e2 =>
        simp only [startOpencodeServer, sidecarSpawnPhase, hst,
          Prod.mk.injEq] at hrun
        refine ⟨by rw [← hrun.2.1], by rw [← hrun.2.1], ?_⟩
        intro c hc hcs hne
        have hcc : c0 = c := by simpa using hc
        subst hcc
        rw [hst] at hcs
        simp at hcs

/-- C10 witness: a failed spawn on port 5000 with a live process on port
4096 leaves the state Absent with the old pid killed and waited for. -/
theorem sidecar_start_failure_absent_witness :
    startOpencodeServer (Except.error "x") "p"
      ⟨some ⟨5, ProcStatus.running⟩, some 4096⟩ 5000 =
      (Except.error "Failed to spawn opencode: x. PATH=p", ⟨none, none⟩,
       [ProcAction.kill 5, ProcAction.wait 5]) ∧
    (⟨none, none⟩ : OpenCodeServerState).process = none ∧
    ProcAction.kill 5 ∈ [ProcAction.kill 5, ProcAction.wait 5] := by
  have hrun : startOpencodeServer (Except.error "x") "p"
      ⟨some ⟨5, ProcStatus.running⟩, some 4096⟩ 5000 =
      (Except.error "Failed to spawn opencode: x. PATH=p", ⟨none, none⟩,
       [ProcAction.kill 5, ProcAction.wait 5]) := by rfl
  have h := sidecar_start_failure_absent (Except.error "x") "p"
    ⟨some ⟨5, ProcStatus.running⟩, some 4096⟩ 5000 (by decide)
    "Failed to spawn opencode: x. PATH=p" ⟨none, none⟩
    [ProcAction.kill 5, ProcAction.wait 5] hrun
  exact ⟨hrun, h.1,
    (h.2.2 ⟨5, ProcStatus.running⟩ rfl rfl (by decide)).1⟩

end Onyx
